import Mathlib

/-!
Shallow embedding of `src/navigation/search.py` (square-spiral search
trajectory generator and search control state) with verification of its
specified properties.

Numpy arrays of 2-D (resp. 3-D) points are embedded as `List (Int × Int)`
(resp. `List (Int × Int × Int)`); the `distance` parameter of the generator
is an `Int`, matching the Python signature `distance : int`, and center
coordinates are embedded as `Int` pairs.  Fallible operations (numpy
out-of-range indexing raises `IndexError`) return `Option`.
-/

namespace Search

/-- A 2-D integer point. -/
abbrev P2 := Int × Int

/-- A 3-D integer point. -/
abbrev P3 := Int × Int × Int

/-- Embeds `np.tile(l, (n, 1))` on a list of rows: the list repeated `n` times. -/
def np_tile (l : List P2) (n : Nat) : List P2 :=
  (List.replicate n l).flatten

/-- Embeds `np.repeat(l, 2)`: each element repeated twice, in place. -/
def np_repeat2 (l : List Int) : List Int :=
  l.flatMap (fun x => [x, x])

/-- Embeds `np.arange(1, m + 1)`: the integers `1, 2, ..., m`. -/
def np_arange1 (m : Nat) : List Int :=
  (List.range m).map (fun (i : Nat) => (i : Int) + 1)

/-- Row-wise scaling: `deltas *= dist_coefs` with a column vector of
coefficients (numpy broadcasting multiplies row `i` by `coefs[i]`). -/
def scale_rows (rows : List P2) (coefs : List Int) : List P2 :=
  List.zipWith (fun (d : P2) (c : Int) => (d.1 * c, d.2 * c)) rows coefs

/-- Embeds `np.cumsum(np.vstack((center, deltas)), axis=0)`: running sums of the
rows, the first row being `center` itself. -/
def np_cumsum (center : P2) (deltas : List P2) : List P2 :=
  List.scanl (fun (p d : P2) => (p.1 + d.1, p.2 + d.2)) center deltas

/-- Embeds `np.hstack((coordinates, zeros))`: append a zero z-coordinate to each
2-D point. -/
def hstack_zero (l : List P2) : List P3 :=
  l.map (fun p => (p.1, p.2, 0))

/-- Structure `SearchTrajectory` from `search.py`: coordinates of the trajectory,
the associated fiducial id, and the currently tracked coordinate index. -/
structure SearchTrajectory where
  coordinates : List P3
  fid_id : Int
  cur_pt : Nat := 0
  deriving Repr, DecidableEq

namespace SearchTrajectory

/-- The class variable `dirs = np.array([[0, -1], [-1, 0], [0, 1], [1, 0]])`. -/
def dirs : List P2 := [(0, -1), (-1, 0), (0, 1), (1, 0)]

/-- Method `get_cur_pt`: `self.coordinates[self.cur_pt]`.  Indexing a numpy array
out of range raises `IndexError`, embedded as `none`. -/
def get_cur_pt (t : SearchTrajectory) : Option P3 :=
  t.coordinates[t.cur_pt]?

/-- Method `increment_point`: increments the tracked point, returns the updated
trajectory together with the boolean `cur_pt >= len(coordinates)`
("the trajectory is finished"). -/
def increment_point (t : SearchTrajectory) : SearchTrajectory × Bool :=
  let t' : SearchTrajectory := { t with cur_pt := t.cur_pt + 1 }
  (t', decide (t'.coordinates.length ≤ t'.cur_pt))

/-- Classmethod `spiral_traj(center, num_turns, distance, fid_id)`: generates a square
spiral search pattern around a center position, translated line by line
from the numpy code. -/
def spiral_traj (center : P2) (num_turns : Nat) (distance : Int)
    (fid_id : Int) : SearchTrajectory :=
  let deltas := np_tile dirs num_turns
  let dist_coefs := (np_repeat2 (np_arange1 (num_turns * 2))).map
    (fun x => distance * x)
  let deltas := scale_rows deltas dist_coefs
  let coordinates := np_cumsum center deltas
  { coordinates := hstack_zero coordinates
    fid_id := fid_id }

end SearchTrajectory

/-! ### Index characterization of the numpy helpers -/

theorem np_tile_length (l : List P2) (n : Nat) :
    (np_tile l n).length = n * l.length := by
  induction n with
  | zero => simp [np_tile]
  | succ n ih =>
    simp only [np_tile, List.replicate_succ, List.flatten_cons,
      List.length_append] at ih ⊢
    rw [ih]; ring

theorem np_tile_getElem? (l : List P2) (n k : Nat) (hk : k < n * l.length) :
    (np_tile l n)[k]? = l[k % l.length]? := by
  induction n generalizing k with
  | zero => omega
  | succ n ih =>
    simp only [np_tile, List.replicate_succ, List.flatten_cons] at ih ⊢
    rcases Nat.lt_or_ge k l.length with h | h
    · rw [List.getElem?_append_left h, Nat.mod_eq_of_lt h]
    · rw [List.getElem?_append_right h,
        ih _ (by
          have h1 : (n + 1) * l.length = n * l.length + l.length :=
            Nat.succ_mul n l.length
          omega),
        Nat.mod_eq_sub_mod h]

theorem np_repeat2_length (l : List Int) :
    (np_repeat2 l).length = 2 * l.length := by
  induction l with
  | nil => simp [np_repeat2]
  | cons x xs ih =>
    simp only [np_repeat2, List.flatMap_cons, List.length_append] at ih ⊢
    simp [ih]; ring

theorem np_repeat2_getElem? (l : List Int) (k : Nat) (hk : k < 2 * l.length) :
    (np_repeat2 l)[k]? = l[k / 2]? := by
  induction l generalizing k with
  | nil => simp at hk
  | cons x xs ih =>
    match k with
    | 0 => simp [np_repeat2]
    | 1 => simp [np_repeat2]
    | k + 2 =>
      have h2 : (k + 2) / 2 = k / 2 + 1 := by omega
      simp only [np_repeat2, List.flatMap_cons, List.cons_append,
        List.nil_append, List.getElem?_cons_succ, h2]
      simpa [np_repeat2] using ih k (by simp at hk; omega)

theorem np_arange1_getElem? (m i : Nat) (hi : i < m) :
    (np_arange1 m)[i]? = some ((i : Int) + 1) := by
  rw [np_arange1, List.getElem?_map, List.getElem?_range hi]; rfl

theorem scale_rows_getElem? (rows : List P2) (coefs : List Int) (k : Nat)
    (d : P2) (c : Int) (hd : rows[k]? = some d) (hc : coefs[k]? = some c) :
    (scale_rows rows coefs)[k]? = some (d.1 * c, d.2 * c) := by
  induction rows generalizing coefs k with
  | nil => simp at hd
  | cons r rs ih =>
    cases coefs with
    | nil => simp at hc
    | cons c0 cs =>
      match k with
      | 0 =>
        simp only [List.getElem?_cons_zero, Option.some.injEq] at hd hc
        simp [scale_rows, hd, hc]
      | k + 1 =>
        simp only [List.getElem?_cons_succ] at hd hc
        simpa [scale_rows] using ih cs k hd hc

/-! ### Closed form of the generated spiral -/

theorem dirs_length : SearchTrajectory.dirs.length = 4 := rfl

theorem mod4_lt (j : Nat) : j % 4 < SearchTrajectory.dirs.length :=
  Nat.mod_lt j (by decide)

/-- The delta-vector list built inside `spiral_traj`: the tiled direction
cycle scaled row-wise by the repeated distance coefficients. -/
def spiral_deltas (num_turns : Nat) (distance : Int) : List P2 :=
  scale_rows (np_tile SearchTrajectory.dirs num_turns)
    ((np_repeat2 (np_arange1 (num_turns * 2))).map (fun x => distance * x))

theorem spiral_traj_coordinates (c : P2) (T : Nat) (S id : Int) :
    (SearchTrajectory.spiral_traj c T S id).coordinates =
      hstack_zero (np_cumsum c (spiral_deltas T S)) := rfl

theorem np_arange1_length (m : Nat) : (np_arange1 m).length = m := by
  simp [np_arange1]

theorem spiral_deltas_length (T : Nat) (S : Int) :
    (spiral_deltas T S).length = 4 * T := by
  simp only [spiral_deltas, scale_rows, List.length_zipWith, List.length_map,
    np_tile_length, np_repeat2_length, np_arange1_length, dirs_length]
  omega

theorem spiral_deltas_getElem? (T : Nat) (S : Int) (k : Nat) (hk : k < 4 * T) :
    (spiral_deltas T S)[k]? =
      some ((SearchTrajectory.dirs.get ⟨k % 4, mod4_lt k⟩).1 *
              (S * ((k / 2 : Nat) + 1)),
            (SearchTrajectory.dirs.get ⟨k % 4, mod4_lt k⟩).2 *
              (S * ((k / 2 : Nat) + 1))) := by
  apply scale_rows_getElem?
  · rw [np_tile_getElem? _ _ _ (by rw [dirs_length]; omega)]
    exact List.getElem?_eq_getElem (mod4_lt k)
  · rw [List.getElem?_map,
      np_repeat2_getElem? _ _ (by rw [np_arange1_length]; omega),
      np_arange1_getElem? _ _ (by omega)]
    rfl

/-- Closed form of the spiral waypoint at index `j`; the completed-turn
counter for index `j` is `(j + 3) / 4`. -/
def spiralPoint (c : P2) (S : Int) (j : Nat) : P2 :=
  let t : Int := ((j + 3) / 4 : Nat)
  match j % 4 with
  | 0 => (c.1 + t * S, c.2 + t * S)
  | 1 => (c.1 + (t - 1) * S, c.2 - t * S)
  | 2 => (c.1 - t * S, c.2 - t * S)
  | _ => (c.1 - t * S, c.2 + t * S)

theorem spiralPoint_zero (c : P2) (S : Int) : spiralPoint c S 0 = c := by
  simp [spiralPoint]

theorem spiralPoint_succ (c : P2) (S : Int) (j : Nat) :
    spiralPoint c S (j + 1) =
      ((spiralPoint c S j).1 +
         (SearchTrajectory.dirs.get ⟨j % 4, mod4_lt j⟩).1 *
           (S * ((j / 2 : Nat) + 1)),
       (spiralPoint c S j).2 +
         (SearchTrajectory.dirs.get ⟨j % 4, mod4_lt j⟩).2 *
           (S * ((j / 2 : Nat) + 1))) := by
  obtain ⟨m, r, hr4, rfl⟩ : ∃ m r, r < 4 ∧ j = 4 * m + r :=
    ⟨j / 4, j % 4, Nat.mod_lt _ (by decide), by omega⟩
  interval_cases r
  · have e1 : (4 * m + 0) % 4 = 0 := by omega
    have e2 : (4 * m + 0 + 1) % 4 = 1 := by omega
    have e3 : (4 * m + 0 + 3) / 4 = m := by omega
    have e4 : (4 * m + 0 + 1 + 3) / 4 = m + 1 := by omega
    have e5 : (4 * m + 0) / 2 = 2 * m := by omega
    simp only [spiralPoint, e1, e2, e3, e4, e5, SearchTrajectory.dirs,
      List.get_eq_getElem, List.getElem_cons_zero, Prod.mk.injEq]
    constructor <;> (push_cast; ring)
  · have e1 : (4 * m + 1) % 4 = 1 := by omega
    have e2 : (4 * m + 1 + 1) % 4 = 2 := by omega
    have e3 : (4 * m + 1 + 3) / 4 = m + 1 := by omega
    have e4 : (4 * m + 1 + 1 + 3) / 4 = m + 1 := by omega
    have e5 : (4 * m + 1) / 2 = 2 * m := by omega
    simp only [spiralPoint, e1, e2, e3, e4, e5, SearchTrajectory.dirs,
      List.get_eq_getElem, List.getElem_cons_zero, List.getElem_cons_succ,
      Prod.mk.injEq]
    constructor <;> (push_cast; ring)
  · have e1 : (4 * m + 2) % 4 = 2 := by omega
    have e2 : (4 * m + 2 + 1) % 4 = 3 := by omega
    have e3 : (4 * m + 2 + 3) / 4 = m + 1 := by omega
    have e4 : (4 * m + 2 + 1 + 3) / 4 = m + 1 := by omega
    have e5 : (4 * m + 2) / 2 = 2 * m + 1 := by omega
    simp only [spiralPoint, e1, e2, e3, e4, e5, SearchTrajectory.dirs,
      List.get_eq_getElem, List.getElem_cons_zero, List.getElem_cons_succ,
      Prod.mk.injEq]
    constructor <;> (push_cast; ring)
  · have e1 : (4 * m + 3) % 4 = 3 := by omega
    have e2 : (4 * m + 3 + 1) % 4 = 0 := by omega
    have e3 : (4 * m + 3 + 3) / 4 = m + 1 := by omega
    have e4 : (4 * m + 3 + 1 + 3) / 4 = m + 1 := by omega
    have e5 : (4 * m + 3) / 2 = 2 * m + 1 := by omega
    simp only [spiralPoint, e1, e2, e3, e4, e5, SearchTrajectory.dirs,
      List.get_eq_getElem, List.getElem_cons_zero, List.getElem_cons_succ,
      Prod.mk.injEq]
    constructor <;> (push_cast; ring)

theorem np_cumsum_length (c : P2) (l : List P2) :
    (np_cumsum c l).length = l.length + 1 := by
  simp [np_cumsum, List.length_scanl]

theorem np_cumsum_getElem?_succ (c : P2) (l : List P2) (j : Nat)
    (hj : j < l.length) :
    (np_cumsum c l)[j + 1]? =
      (np_cumsum c l)[j]?.bind fun p =>
        l[j]?.map fun d => (p.1 + d.1, p.2 + d.2) := by
  induction l generalizing c j with
  | nil => simp at hj
  | cons d ds ih =>
    simp only [np_cumsum, List.scanl_cons, List.singleton_append] at ih ⊢
    match j with
    | 0 => simp [List.getElem?_scanl_zero]
    | j + 1 =>
      simp only [List.getElem?_cons_succ]
      exact ih _ _ (by simpa using hj)

theorem np_cumsum_spiral_getElem? (c : P2) (S : Int) (T : Nat) (j : Nat)
    (hj : j < 4 * T + 1) :
    (np_cumsum c (spiral_deltas T S))[j]? = some (spiralPoint c S j) := by
  induction j with
  | zero => simp [np_cumsum, List.getElem?_scanl_zero, spiralPoint_zero]
  | succ j ih =>
    rw [np_cumsum_getElem?_succ _ _ _ (by rw [spiral_deltas_length]; omega),
      ih (by omega), spiral_deltas_getElem? _ _ _ (by omega)]
    simp [spiralPoint_succ]

/-- Decodes a spiral waypoint back to its index, given the center and a
positive step: the quadrant of the displacement determines the phase and
the magnitude determines the turn counter. -/
def spiralIndex (c : P2) (S : Int) (p : P2) : Nat :=
  if 0 ≤ p.1 - c.1 then
    if 0 ≤ p.2 - c.2 then (4 * ((p.1 - c.1) / S)).toNat
    else (4 * ((c.2 - p.2) / S - 1) + 1).toNat
  else
    if p.2 - c.2 < 0 then (4 * ((c.1 - p.1) / S - 1) + 2).toNat
    else (4 * ((c.1 - p.1) / S - 1) + 3).toNat

theorem spiralIndex_spiralPoint (c : P2) (S : Int) (hS : 0 < S) (j : Nat) :
    spiralIndex c S (spiralPoint c S j) = j := by
  have hS0 : S ≠ 0 := ne_of_gt hS
  obtain ⟨m, r, hr4, rfl⟩ : ∃ m r, r < 4 ∧ j = 4 * m + r :=
    ⟨j / 4, j % 4, Nat.mod_lt _ (by decide), by omega⟩
  interval_cases r
  · have e1 : (4 * m + 0) % 4 = 0 := by omega
    have e3 : (4 * m + 0 + 3) / 4 = m := by omega
    simp only [spiralPoint, e1, e3, spiralIndex]
    have d1 : c.1 + (m : Int) * S - c.1 = (m : Int) * S := by ring
    have d2 : c.2 + (m : Int) * S - c.2 = (m : Int) * S := by ring
    rw [if_pos, if_pos]
    · rw [d1, Int.mul_ediv_cancel _ hS0]; omega
    · rw [d2]; positivity
    · rw [d1]; positivity
  · have e1 : (4 * m + 1) % 4 = 1 := by omega
    have e3 : (4 * m + 1 + 3) / 4 = m + 1 := by omega
    simp only [spiralPoint, e1, e3, spiralIndex]
    have d1 : c.1 + ((m : Int) + 1 - 1) * S - c.1 = (m : Int) * S := by
      ring
    have d2 : c.2 - c.2 - ((m + 1 : Nat) : Int) * S = -(((m + 1 : Nat) : Int) * S) := by
      push_cast; ring
    have d3 : c.2 - (c.2 - ((m + 1 : Nat) : Int) * S) = ((m + 1 : Nat) : Int) * S := by
      push_cast; ring
    rw [if_pos, if_neg]
    · rw [d3, Int.mul_ediv_cancel _ hS0]; push_cast; omega
    · push_cast
      have : (0 : Int) < ((m + 1 : Nat) : Int) * S := by positivity
      push_cast at this ⊢
      omega
    · push_cast at d1 ⊢
      rw [d1]; positivity
  · have e1 : (4 * m + 2) % 4 = 2 := by omega
    have e3 : (4 * m + 2 + 3) / 4 = m + 1 := by omega
    simp only [spiralPoint, e1, e3, spiralIndex]
    have hpos : (0 : Int) < ((m + 1 : Nat) : Int) * S := by positivity
    have d1 : c.1 - ((m + 1 : Nat) : Int) * S - c.1 = -(((m + 1 : Nat) : Int) * S) := by
      push_cast; ring
    have d2 : c.2 - ((m + 1 : Nat) : Int) * S - c.2 = -(((m + 1 : Nat) : Int) * S) := by
      push_cast; ring
    have d3 : c.1 - (c.1 - ((m + 1 : Nat) : Int) * S) = ((m + 1 : Nat) : Int) * S := by
      push_cast; ring
    rw [if_neg, if_pos]
    · rw [d3, Int.mul_ediv_cancel _ hS0]; push_cast; omega
    · push_cast at d2 hpos ⊢; omega
    · push_cast at d1 hpos ⊢; omega
  · have e1 : (4 * m + 3) % 4 = 3 := by omega
    have e3 : (4 * m + 3 + 3) / 4 = m + 1 := by omega
    simp only [spiralPoint, e1, e3, spiralIndex]
    have hpos : (0 : Int) < ((m + 1 : Nat) : Int) * S := by positivity
    have d1 : c.1 - ((m + 1 : Nat) : Int) * S - c.1 = -(((m + 1 : Nat) : Int) * S) := by
      push_cast; ring
    have d2 : c.2 + ((m + 1 : Nat) : Int) * S - c.2 = ((m + 1 : Nat) : Int) * S := by
      push_cast; ring
    have d3 : c.1 - (c.1 - ((m + 1 : Nat) : Int) * S) = ((m + 1 : Nat) : Int) * S := by
      push_cast; ring
    rw [if_neg, if_neg]
    · rw [d3, Int.mul_ediv_cancel _ hS0]; push_cast; omega
    · push_cast at d2 hpos ⊢; omega
    · push_cast at d1 hpos ⊢; omega

theorem spiralPoint_inj (c : P2) (S : Int) (hS : 0 < S) {j k : Nat}
    (h : spiralPoint c S j = spiralPoint c S k) : j = k := by
  have h2 := congrArg (spiralIndex c S) h
  rwa [spiralIndex_spiralPoint c S hS, spiralIndex_spiralPoint c S hS] at h2

/-! ### The trajectory produced by spiral_traj, pointwise -/

theorem spiral_traj_length (c : P2) (T : Nat) (S id : Int) :
    (SearchTrajectory.spiral_traj c T S id).coordinates.length = 4 * T + 1 := by
  rw [spiral_traj_coordinates, hstack_zero, List.length_map, np_cumsum_length,
    spiral_deltas_length]

theorem spiral_traj_getElem? (c : P2) (T : Nat) (S id : Int) (j : Nat)
    (hj : j < 4 * T + 1) :
    (SearchTrajectory.spiral_traj c T S id).coordinates[j]? =
      some ((spiralPoint c S j).1, (spiralPoint c S j).2, 0) := by
  rw [spiral_traj_coordinates, hstack_zero, List.getElem?_map,
    np_cumsum_spiral_getElem? c S T j hj]
  rfl

theorem spiral_traj_fid_id (c : P2) (T : Nat) (S id : Int) :
    (SearchTrajectory.spiral_traj c T S id).fid_id = id := rfl

theorem spiral_traj_cur_pt (c : P2) (T : Nat) (S id : Int) :
    (SearchTrajectory.spiral_traj c T S id).cur_pt = 0 := rfl

/-! ### Claims about the spiral generator -/

/-- C1: for every center point, turn count `T ≥ 1` and step `S > 0`,
`spiral_traj` returns a trajectory whose coordinates sequence has exactly
`4*T + 1` points, whose point 0 equals the center (with the appended zero
z-coordinate), and in which every point's z-coordinate is 0. -/
theorem spiral_traj_shape (c : P2) (T : Nat) (S id : Int)
    (hT : 1 ≤ T) (hS : 0 < S) :
    (SearchTrajectory.spiral_traj c T S id).coordinates.length = 4 * T + 1 ∧
    (SearchTrajectory.spiral_traj c T S id).coordinates[0]? =
      some (c.1, c.2, 0) ∧
    ∀ p ∈ (SearchTrajectory.spiral_traj c T S id).coordinates, p.2.2 = 0 := by
  refine ⟨spiral_traj_length c T S id, ?_, ?_⟩
  · rw [spiral_traj_getElem? c T S id 0 (by omega), spiralPoint_zero]
  · intro p hp
    rw [spiral_traj_coordinates, hstack_zero] at hp
    obtain ⟨q, -, rfl⟩ := List.mem_map.1 hp
    rfl

theorem spiral_traj_shape_witness :
    1 ≤ 1 ∧ (0 : Int) < 2 ∧
    (SearchTrajectory.spiral_traj (0, 0) 1 2 7).coordinates.length =
      4 * 1 + 1 ∧
    (SearchTrajectory.spiral_traj (0, 0) 1 2 7).coordinates[0]? =
      some (0, 0, 0) :=
  ⟨le_refl 1, by decide,
   (spiral_traj_shape (0, 0) 1 2 7 (le_refl 1) (by decide)).1,
   (spiral_traj_shape (0, 0) 1 2 7 (le_refl 1) (by decide)).2.1⟩

/-- C2: for every `T ≥ 1` and `S > 0`, the displacement from waypoint `k`
to waypoint `k+1` is the direction `dirs[k % 4]` (the fixed 4-direction
cycle repeated `T` times) scaled by `S * (k / 2 + 1)` (the magnitude
sequence `S, S, 2*S, 2*S, 3*S, 3*S, ...`), with no vertical component; in
particular `spiral_traj (0,0) 1 2 7` yields exactly the points
`(0,0), (0,-2), (-2,-2), (-2,2), (2,2)` with `z = 0`. -/
theorem spiral_traj_step_pattern (c : P2) (T : Nat) (S id : Int)
    (hT : 1 ≤ T) (hS : 0 < S) :
    (∀ k, k < 4 * T →
      ∃ p q : P3,
        (SearchTrajectory.spiral_traj c T S id).coordinates[k]? = some p ∧
        (SearchTrajectory.spiral_traj c T S id).coordinates[k + 1]? =
          some q ∧
        q.1 - p.1 =
          (SearchTrajectory.dirs.get ⟨k % 4, mod4_lt k⟩).1 *
            (S * ((k / 2 : Nat) + 1)) ∧
        q.2.1 - p.2.1 =
          (SearchTrajectory.dirs.get ⟨k % 4, mod4_lt k⟩).2 *
            (S * ((k / 2 : Nat) + 1)) ∧
        q.2.2 = 0 ∧ p.2.2 = 0) ∧
    (SearchTrajectory.spiral_traj (0, 0) 1 2 7).coordinates =
      [(0, 0, 0), (0, -2, 0), (-2, -2, 0), (-2, 2, 0), (2, 2, 0)] := by
  constructor
  · intro k hk
    refine ⟨_, _, spiral_traj_getElem? c T S id k (by omega),
      spiral_traj_getElem? c T S id (k + 1) (by omega), ?_, ?_, rfl, rfl⟩
    · rw [spiralPoint_succ]; ring
    · rw [spiralPoint_succ]; ring
  · decide

theorem spiral_traj_step_pattern_witness :
    1 ≤ 1 ∧ (0 : Int) < 2 ∧
    (SearchTrajectory.spiral_traj (0, 0) 1 2 7).coordinates =
      [(0, 0, 0), (0, -2, 0), (-2, -2, 0), (-2, 2, 0), (2, 2, 0)] :=
  ⟨le_refl 1, by decide,
   (spiral_traj_step_pattern (0, 0) 1 2 7 (le_refl 1) (by decide)).2⟩

/-- C3: for every `T ≥ 1` and `S > 0`, the `4*T + 1` waypoints produced by
`spiral_traj` are pairwise distinct: the spiral never revisits a point. -/
theorem spiral_traj_nodup (c : P2) (T : Nat) (S id : Int)
    (hT : 1 ≤ T) (hS : 0 < S) :
    (SearchTrajectory.spiral_traj c T S id).coordinates.Nodup := by
  rw [List.nodup_iff_getElem?_ne_getElem?]
  intro i j hij hj
  rw [spiral_traj_length] at hj
  rw [spiral_traj_getElem? c T S id i (by omega),
    spiral_traj_getElem? c T S id j (by omega)]
  intro h
  simp only [Option.some.injEq, Prod.mk.injEq] at h
  obtain ⟨h1, h2, -⟩ := h
  exact absurd (spiralPoint_inj c S hS (Prod.ext h1 h2)) (Nat.ne_of_lt hij)

theorem spiral_traj_nodup_witness :
    1 ≤ 1 ∧ (0 : Int) < 2 ∧
    (SearchTrajectory.spiral_traj (0, 0) 1 2 7).coordinates.Nodup :=
  ⟨le_refl 1, by decide, spiral_traj_nodup (0, 0) 1 2 7 (le_refl 1) (by decide)⟩

/-! ### The search control state -/

/-- Modelled from the spec: `Environment.NO_FIDUCIAL`, the "no marker"
sentinel value compared against `waypoint.fiducial_id` (defined in
`context.py`, which is not among the sources; the spec calls it the
`NoMarkerSentinel`).  Its numeric value is irrelevant to every claim,
which only compares ids against it. -/
def NO_FIDUCIAL : Int := -1

/-- An actuator command (a ROS `Twist`); its contents are never inspected
by the core, which only forwards it to `send_drive_command`. -/
structure Twist where
  data : Int
  deriving Repr, DecidableEq

/-- Mutable state of `SearchState`: the optional active trajectory kept
across evaluation cycles (`self.traj`). -/
structure SearchState where
  traj : Option SearchTrajectory
  deriving Repr, DecidableEq

/-- The three outcome labels `evaluate` can return: `"waypoint_traverse"`,
`"single_fiducial"` and `"search"`. -/
inductive Outcome where
  | waypoint_traverse
  | single_fiducial
  | search
  deriving Repr, DecidableEq

/-- Observable result of one `evaluate` cycle: the returned label, the
post-cycle controller state, and the drive commands sent to the rover
during the cycle. -/
structure EvalResult where
  outcome : Outcome
  state : SearchState
  sent : List Twist
  deriving Repr, DecidableEq

/-- The trajectory (re)binding block at the top of `evaluate`: reuse the
active trajectory when it exists and its fiducial id matches the current
waypoint, otherwise generate a fresh spiral centered at the rover's
planar position with 5 turns and step 2. -/
def select_traj (s : SearchState) (waypoint_fid : Int) (rover_xy : P2) :
    SearchTrajectory :=
  match s.traj with
  | none => SearchTrajectory.spiral_traj rover_xy 5 2 waypoint_fid
  | some t =>
    if t.fid_id ≠ waypoint_fid then
      SearchTrajectory.spiral_traj rover_xy 5 2 waypoint_fid
    else t

/-- One cycle of `SearchState.evaluate`, as a function of the controller
state and this cycle's collaborator readings: the current waypoint's
fiducial id, the rover's planar position, the drive-command function
(`get_drive_command` with the pose and thresholds of this cycle applied),
and the perceived fiducial position (`current_fid_pos`).  `none` embeds
the `IndexError` raised when `get_cur_pt` reads `coordinates[cur_pt]` out
of range. -/
def evaluate (s : SearchState) (waypoint_fid : Int) (rover_xy : P2)
    (gdc : P3 → Twist × Bool) (fid_pos : Option P3) : Option EvalResult :=
  let traj := select_traj s waypoint_fid rover_xy
  match traj.get_cur_pt with
  | none => none
  | some target_pos =>
    let cmd_vel := (gdc target_pos).1
    let arrived := (gdc target_pos).2
    let step := if arrived then traj.increment_point else (traj, false)
    if step.2 then
      some ⟨.waypoint_traverse, ⟨some step.1⟩, []⟩
    else
      let outcome :=
        if waypoint_fid ≠ NO_FIDUCIAL ∧ fid_pos.isSome then
          Outcome.single_fiducial
        else Outcome.search
      some ⟨outcome, ⟨some step.1⟩, [cmd_vel]⟩

/-! ### Structural lemmas about the trajectory operations -/

theorem increment_point_coordinates (t : SearchTrajectory) :
    (t.increment_point).1.coordinates = t.coordinates := rfl

theorem increment_point_fid_id (t : SearchTrajectory) :
    (t.increment_point).1.fid_id = t.fid_id := rfl

theorem select_traj_some_eq (t : SearchTrajectory) (way : Int) (rover : P2)
    (h : t.fid_id = way) : select_traj ⟨some t⟩ way rover = t := by
  simp [select_traj, h]

theorem select_traj_fid_id (s : SearchState) (way : Int) (rover : P2) :
    (select_traj s way rover).fid_id = way := by
  unfold select_traj
  cases s.traj with
  | none => rfl
  | some t =>
    by_cases h : t.fid_id = way
    · simp [h]
    · simp [h, spiral_traj_fid_id]

/-! ### Claims about the trajectory operations -/

/-- C8: `increment_point` increments the cursor by exactly 1, never
decreases it, and returns `true` iff the post-increment cursor is at
least the length of the coordinates sequence. -/
theorem increment_point_spec (t : SearchTrajectory) :
    (t.increment_point).1.cur_pt = t.cur_pt + 1 ∧
    t.cur_pt ≤ (t.increment_point).1.cur_pt ∧
    ((t.increment_point).2 = true ↔
      t.coordinates.length ≤ (t.increment_point).1.cur_pt) := by
  refine ⟨rfl, ?_, ?_⟩
  · simp [SearchTrajectory.increment_point]
  · simp [SearchTrajectory.increment_point]

/-- C9 counterexample: on the exhausted one-point trajectory with cursor
1, `increment_point` does not fail: it returns normally, reports `true`,
and leaves the cursor at 2, strictly beyond the coordinates length 1 —
silent advancing that violates the claimed invariant
`cursor ≤ len(coordinates)`. -/
theorem increment_point_exhausted_counterexample :
    (SearchTrajectory.mk [(0, 0, 0)] 7 1).coordinates.length ≤
      (SearchTrajectory.mk [(0, 0, 0)] 7 1).cur_pt ∧
    ((SearchTrajectory.mk [(0, 0, 0)] 7 1).increment_point).2 = true ∧
    ((SearchTrajectory.mk [(0, 0, 0)] 7 1).increment_point).1.cur_pt = 2 ∧
    (SearchTrajectory.mk [(0, 0, 0)] 7 1).coordinates.length <
      ((SearchTrajectory.mk [(0, 0, 0)] 7 1).increment_point).1.cur_pt := by
  decide

/-- C9 amended: retrieving the current point of an exhausted trajectory
fails loudly (numpy `IndexError`, embedded as `none`); but calling
`increment_point` on an already-exhausted trajectory does not fail: it
silently increments the cursor to one past the length (still reporting
exhaustion), so `increment_point` does not preserve the upper bound
`cursor ≤ len(coordinates)`. -/
theorem exhausted_trajectory_ops (t : SearchTrajectory)
    (h : t.coordinates.length ≤ t.cur_pt) :
    t.get_cur_pt = none ∧
    (t.increment_point).2 = true ∧
    (t.increment_point).1.cur_pt = t.cur_pt + 1 ∧
    t.coordinates.length < (t.increment_point).1.cur_pt := by
  refine ⟨?_, ?_, rfl, ?_⟩
  · simp [SearchTrajectory.get_cur_pt, List.getElem?_eq_none, h]
  · simp [SearchTrajectory.increment_point]; omega
  · simp [SearchTrajectory.increment_point]; omega

/-! ### Lemmas about one evaluation cycle -/

theorem evaluate_finished_eq (s : SearchState) (way : Int) (rover : P2)
    (gdc : P3 → Twist × Bool) (fp : Option P3) (tp : P3)
    (htp : (select_traj s way rover).get_cur_pt = some tp)
    (harr : (gdc tp).2 = true)
    (hfin : (select_traj s way rover).coordinates.length ≤
      (select_traj s way rover).cur_pt + 1) :
    evaluate s way rover gdc fp =
      some ⟨.waypoint_traverse,
        ⟨some ((select_traj s way rover).increment_point).1⟩, []⟩ := by
  have hstep : ((select_traj s way rover).increment_point).2 = true := by
    simp [SearchTrajectory.increment_point]
    omega
  simp only [evaluate, htp, harr, if_true, hstep]

theorem evaluate_outcome_cases (s : SearchState) (way : Int) (rover : P2)
    (gdc : P3 → Twist × Bool) (fp : Option P3) (res : EvalResult)
    (h : evaluate s way rover gdc fp = some res) :
    res.outcome = Outcome.waypoint_traverse ∨
    res.outcome =
      (if way ≠ NO_FIDUCIAL ∧ fp.isSome then Outcome.single_fiducial
       else Outcome.search) := by
  simp only [evaluate] at h
  cases htp : (select_traj s way rover).get_cur_pt with
  | none => rw [htp] at h; cases h
  | some tp =>
    rw [htp] at h
    simp only at h
    split at h
    · split at h
      · cases h; left; rfl
      · cases h; right; rfl
    · split at h
      · rename_i hc; simp at hc
      · cases h; right; rfl

theorem exhausted_trajectory_ops_witness :
    (SearchTrajectory.mk [(0, 0, 0)] 7 1).coordinates.length ≤
      (SearchTrajectory.mk [(0, 0, 0)] 7 1).cur_pt ∧
    (SearchTrajectory.mk [(0, 0, 0)] 7 1).get_cur_pt = none ∧
    ((SearchTrajectory.mk [(0, 0, 0)] 7 1).increment_point).2 = true ∧
    ((SearchTrajectory.mk [(0, 0, 0)] 7 1).increment_point).1.cur_pt =
      (SearchTrajectory.mk [(0, 0, 0)] 7 1).cur_pt + 1 ∧
    (SearchTrajectory.mk [(0, 0, 0)] 7 1).coordinates.length <
      ((SearchTrajectory.mk [(0, 0, 0)] 7 1).increment_point).1.cur_pt :=
  ⟨by decide,
   exhausted_trajectory_ops (SearchTrajectory.mk [(0, 0, 0)] 7 1) (by decide)⟩

/-! ### Claims about the evaluation cycle -/

/-- C4: when the drive-command collaborator reports arrival and advancing
the trajectory reports exhaustion, `evaluate` returns `waypoint_traverse`
(RESUME_COURSE) immediately: no drive command is sent this cycle, and the
entire result is independent of the perception subsystem's reported
fiducial position — exhaustion strictly dominates marker visibility. -/
theorem evaluate_exhaustion_dominates (s : SearchState) (way : Int)
    (rover : P2) (gdc : P3 → Twist × Bool) (fp fp2 : Option P3) (tp : P3)
    (htp : (select_traj s way rover).get_cur_pt = some tp)
    (harr : (gdc tp).2 = true)
    (hfin : (select_traj s way rover).coordinates.length ≤
      (select_traj s way rover).cur_pt + 1) :
    evaluate s way rover gdc fp =
      some ⟨.waypoint_traverse,
        ⟨some ((select_traj s way rover).increment_point).1⟩, []⟩ ∧
    evaluate s way rover gdc fp = evaluate s way rover gdc fp2 :=
  ⟨evaluate_finished_eq s way rover gdc fp tp htp harr hfin,
   (evaluate_finished_eq s way rover gdc fp tp htp harr hfin).trans
     (evaluate_finished_eq s way rover gdc fp2 tp htp harr hfin).symm⟩

theorem evaluate_exhaustion_dominates_witness :
    evaluate ⟨some (SearchTrajectory.mk [(5, 5, 0)] 7 0)⟩ 7 (0, 0)
        (fun _ => (Twist.mk 3, true)) (some (1, 2, 3)) =
      some ⟨Outcome.waypoint_traverse,
        ⟨some (SearchTrajectory.mk [(5, 5, 0)] 7 1)⟩, []⟩ ∧
    evaluate ⟨some (SearchTrajectory.mk [(5, 5, 0)] 7 0)⟩ 7 (0, 0)
        (fun _ => (Twist.mk 3, true)) (some (1, 2, 3)) =
      evaluate ⟨some (SearchTrajectory.mk [(5, 5, 0)] 7 0)⟩ 7 (0, 0)
        (fun _ => (Twist.mk 3, true)) none :=
  evaluate_exhaustion_dominates ⟨some (SearchTrajectory.mk [(5, 5, 0)] 7 0)⟩
    7 (0, 0) (fun _ => (Twist.mk 3, true)) (some (1, 2, 3)) none (5, 5, 0)
    (by decide) rfl (by decide)

/-- C5: with a trajectory that is not exhausted this cycle, a waypoint
carrying a real marker id and a visible fiducial position, `evaluate`
returns `single_fiducial` — even when the arrival flag is false — and the
drive command computed this cycle is still issued before the handoff. -/
theorem evaluate_visibility_handoff (s : SearchState) (way : Int)
    (rover : P2) (gdc : P3 → Twist × Bool) (fp : Option P3) (tp p : P3)
    (htp : (select_traj s way rover).get_cur_pt = some tp)
    (hnex : (gdc tp).2 = true →
      (select_traj s way rover).cur_pt + 1 <
        (select_traj s way rover).coordinates.length)
    (hway : way ≠ NO_FIDUCIAL)
    (hfp : fp = some p) :
    evaluate s way rover gdc fp =
      some ⟨.single_fiducial,
        ⟨some (if (gdc tp).2 = true then
                 ((select_traj s way rover).increment_point).1
               else select_traj s way rover)⟩,
        [(gdc tp).1]⟩ := by
  subst hfp
  cases harr : (gdc tp).2 with
  | false =>
    simp only [evaluate, htp, harr]
    simp [hway]
  | true =>
    have h2 := hnex harr
    have hstep : ((select_traj s way rover).increment_point).2 = false := by
      simp [SearchTrajectory.increment_point]
      omega
    simp only [evaluate, htp, harr, if_true, hstep]
    simp [hway]

theorem evaluate_visibility_handoff_witness :
    evaluate ⟨some (SearchTrajectory.mk [(5, 5, 0), (6, 6, 0)] 7 0)⟩ 7 (0, 0)
        (fun _ => (Twist.mk 3, false)) (some (9, 9, 9)) =
      some ⟨Outcome.single_fiducial,
        ⟨some (SearchTrajectory.mk [(5, 5, 0), (6, 6, 0)] 7 0)⟩,
        [Twist.mk 3]⟩ :=
  evaluate_visibility_handoff
    ⟨some (SearchTrajectory.mk [(5, 5, 0), (6, 6, 0)] 7 0)⟩ 7 (0, 0)
    (fun _ => (Twist.mk 3, false)) (some (9, 9, 9)) (5, 5, 0) (9, 9, 9)
    (by decide) (by intro h; exact absurd h (by decide)) (by decide) rfl

/-- C6: when the current waypoint's marker id equals the no-marker
sentinel, `evaluate` never returns `single_fiducial`, and its result is
identical across any two runs differing only in the perception
subsystem's reported fiducial position. -/
theorem evaluate_sentinel_noninterference (s : SearchState) (way : Int)
    (rover : P2) (gdc : P3 → Twist × Bool) (fp fp2 : Option P3)
    (hway : way = NO_FIDUCIAL) :
    evaluate s way rover gdc fp = evaluate s way rover gdc fp2 ∧
    ∀ res, evaluate s way rover gdc fp = some res →
      res.outcome ≠ Outcome.single_fiducial := by
  subst hway
  constructor
  · simp only [evaluate]
    cases htp : (select_traj s NO_FIDUCIAL rover).get_cur_pt with
    | none => rfl
    | some tp => simp
  · intro res hres
    rcases evaluate_outcome_cases _ _ _ _ _ _ hres with h | h
    · rw [h]; intro hcontra; cases hcontra
    · simp at h
      rw [h]; intro hcontra; cases hcontra

theorem evaluate_sentinel_noninterference_witness :
    evaluate ⟨none⟩ NO_FIDUCIAL (0, 0) (fun _ => (Twist.mk 0, false))
        (some (1, 2, 3)) =
      evaluate ⟨none⟩ NO_FIDUCIAL (0, 0) (fun _ => (Twist.mk 0, false))
        none :=
  (evaluate_sentinel_noninterference ⟨none⟩ NO_FIDUCIAL (0, 0)
    (fun _ => (Twist.mk 0, false)) (some (1, 2, 3)) none rfl).1

/-- C7: `evaluate` replaces the active trajectory exactly when none is
active or its target id differs from the current waypoint's id; the
replacement is a fresh spiral centered at the rover's planar position
with 5 turns, step 2, the waypoint's id and cursor 0; and the trajectory
carried in the result always keeps the selected trajectory's coordinates
and target id — only the cursor may change (by at most one). -/
theorem evaluate_rebind_frame (s : SearchState) (way : Int) (rover : P2)
    (gdc : P3 → Twist × Bool) (fp : Option P3) :
    (∀ t0, s.traj = some t0 → t0.fid_id = way →
       select_traj s way rover = t0) ∧
    ((s.traj = none ∨ ∃ t0, s.traj = some t0 ∧ t0.fid_id ≠ way) →
       select_traj s way rover = SearchTrajectory.spiral_traj rover 5 2 way ∧
       (select_traj s way rover).cur_pt = 0 ∧
       (select_traj s way rover).fid_id = way) ∧
    (∀ res, evaluate s way rover gdc fp = some res →
       ∃ t1, res.state.traj = some t1 ∧
         t1.coordinates = (select_traj s way rover).coordinates ∧
         t1.fid_id = (select_traj s way rover).fid_id ∧
         (t1.cur_pt = (select_traj s way rover).cur_pt ∨
          t1.cur_pt = (select_traj s way rover).cur_pt + 1)) := by
  refine ⟨?_, ?_, ?_⟩
  · intro t0 h0 hfid
    simp [select_traj, h0, hfid]
  · intro hcond
    rcases hcond with h0 | ⟨t0, h0, hfid⟩
    · simp [select_traj, h0, spiral_traj_cur_pt, spiral_traj_fid_id]
    · simp [select_traj, h0, hfid, spiral_traj_cur_pt, spiral_traj_fid_id]
  · intro res hres
    simp only [evaluate] at hres
    cases htp : (select_traj s way rover).get_cur_pt with
    | none => rw [htp] at hres; cases hres
    | some tp =>
      rw [htp] at hres
      simp only at hres
      split at hres
      · split at hres
        · cases hres
          exact ⟨_, rfl, increment_point_coordinates _,
            increment_point_fid_id _, Or.inr rfl⟩
        · cases hres
          exact ⟨_, rfl, increment_point_coordinates _,
            increment_point_fid_id _, Or.inr rfl⟩
      · split at hres
        · rename_i hc; simp at hc
        · cases hres
          exact ⟨_, rfl, rfl, rfl, Or.inl rfl⟩

theorem evaluate_rebind_frame_witness :
    select_traj ⟨some (SearchTrajectory.mk [(0, 0, 0)] 3 1)⟩ 7 (1, 2) =
      SearchTrajectory.spiral_traj (1, 2) 5 2 7 ∧
    (select_traj ⟨some (SearchTrajectory.mk [(0, 0, 0)] 3 1)⟩ 7 (1, 2)).cur_pt
      = 0 :=
  have h := (evaluate_rebind_frame ⟨some (SearchTrajectory.mk [(0, 0, 0)] 3 1)⟩
    7 (1, 2) (fun _ => (Twist.mk 0, false)) none).2.1
    (Or.inr ⟨SearchTrajectory.mk [(0, 0, 0)] 3 1, rfl, by decide⟩)
  ⟨h.1, h.2.1⟩

/-- C10: after a cycle in which arrival exhausts the trajectory and
`waypoint_traverse` is returned, the controller retains the exhausted
trajectory (cursor equals the coordinates length); a further `evaluate`
with the same waypoint id does not rebind and fails at the current-point
read: the embedded error branch (`none`) is reachable at the public
interface. -/
theorem evaluate_stale_after_exhaustion (s : SearchState) (way : Int)
    (rover rover2 : P2) (gdc gdc2 : P3 → Twist × Bool) (fp fp2 : Option P3)
    (tp : P3)
    (htp : (select_traj s way rover).get_cur_pt = some tp)
    (harr : (gdc tp).2 = true)
    (hfin : (select_traj s way rover).coordinates.length ≤
      (select_traj s way rover).cur_pt + 1) :
    evaluate s way rover gdc fp =
      some ⟨.waypoint_traverse,
        ⟨some ((select_traj s way rover).increment_point).1⟩, []⟩ ∧
    ((select_traj s way rover).increment_point).1.cur_pt =
      ((select_traj s way rover).increment_point).1.coordinates.length ∧
    evaluate ⟨some ((select_traj s way rover).increment_point).1⟩ way rover2
      gdc2 fp2 = none := by
  have hlt : (select_traj s way rover).cur_pt <
      (select_traj s way rover).coordinates.length := by
    have h2 := htp
    unfold SearchTrajectory.get_cur_pt at h2
    exact (List.getElem?_eq_some.mp h2).1
  have hcur : ((select_traj s way rover).increment_point).1.cur_pt =
      ((select_traj s way rover).increment_point).1.coordinates.length := by
    show (select_traj s way rover).cur_pt + 1 =
      (select_traj s way rover).coordinates.length
    omega
  refine ⟨evaluate_finished_eq s way rover gdc fp tp htp harr hfin, hcur, ?_⟩
  have hsel : select_traj ⟨some ((select_traj s way rover).increment_point).1⟩
      way rover2 = ((select_traj s way rover).increment_point).1 :=
    select_traj_some_eq _ way rover2
      ((increment_point_fid_id _).trans (select_traj_fid_id s way rover))
  have hnone :
      (((select_traj s way rover).increment_point).1).get_cur_pt = none := by
    unfold SearchTrajectory.get_cur_pt
    exact List.getElem?_eq_none (le_of_eq hcur.symm)
  simp only [evaluate, hsel, hnone]

theorem evaluate_stale_after_exhaustion_witness :
    evaluate ⟨some (SearchTrajectory.mk [(5, 5, 0)] 7 0)⟩ 7 (0, 0)
        (fun _ => (Twist.mk 3, true)) none =
      some ⟨Outcome.waypoint_traverse,
        ⟨some (SearchTrajectory.mk [(5, 5, 0)] 7 1)⟩, []⟩ ∧
    (SearchTrajectory.mk [(5, 5, 0)] 7 1).cur_pt =
      (SearchTrajectory.mk [(5, 5, 0)] 7 1).coordinates.length ∧
    evaluate ⟨some (SearchTrajectory.mk [(5, 5, 0)] 7 1)⟩ 7 (3, 3)
        (fun _ => (Twist.mk 3, true)) (some (8, 8, 8)) = none :=
  evaluate_stale_after_exhaustion ⟨some (SearchTrajectory.mk [(5, 5, 0)] 7 0)⟩
    7 (0, 0) (3, 3) (fun _ => (Twist.mk 3, true)) (fun _ => (Twist.mk 3, true))
    none (some (8, 8, 8)) (5, 5, 0) (by decide) rfl (by decide)

end Search
